import Mathlib

/-!
Verification of the tfy-github-mcp tool handlers (package `pkg/github`):
the argument extraction and validation engine, the pagination resolver,
the response sanitizer family from `cleaned_types.go` and `search.go`,
and the release tool handlers from `releases.go`.

Untyped JSON-ish request arguments are modelled by `JVal`; JSON numbers
are modelled by rationals (the canonical floating-point numeric kind of
the wire format, exact on all the small decimal values that matter here).
Go `nil` pointers and absent fields are modelled by `Option`.

The generic extraction helpers (`requiredParam`, `OptionalParam`,
`OptionalPaginationParams`) are part of this repository but their source
file is not available here; they are modelled from the specification, as
marked on each definition. Every other definition is a direct
translation of the Go source named in its doc comment.
-/

namespace TfyGithubMcp

/-- An untyped argument value: JSON null, boolean, number or string.
Numbers carry their exact rational value. -/
inductive JVal where
  | null
  | boolV (b : Bool)
  | numV (q : ℚ)
  | strV (s : String)
deriving DecidableEq

/-- A request argument map, as handed to a tool handler
(`request.GetArguments()` in the Go source). -/
abbrev Args := List (String × JVal)

/-- First-match lookup in the argument map; `none` models an absent key
(a Go map miss). -/
def lookupArg : Args → String → Option JVal
  | [], _ => none
  | (k, v) :: rest, key => if k = key then some v else lookupArg rest key

/-- The validation error taxonomy of the extraction engine. -/
inductive ParamError where
  | missingParameter (key : String)
  | wrongType (key : String)
  | outOfRange (key : String)
deriving DecidableEq

/-- Modelled from the spec: `requiredParam[string]` / `requiredValue(args, key, string)`,
whose source file is not in the repository snapshot. Returns the string value,
fails with `MissingParameter` when the key is absent or explicitly null, and
with `WrongType` when present but not a string. An empty string is a valid
required string value. -/
def requiredStringParam (args : Args) (key : String) : Except ParamError String :=
  match lookupArg args key with
  | none => .error (.missingParameter key)
  | some .null => .error (.missingParameter key)
  | some (.strV s) => .ok s
  | some _ => .error (.wrongType key)

/-- Modelled from the spec: `requiredParam[float64]` / `requiredValue(args, key, number)`,
whose source file is not in the repository snapshot. The numeric kind is the
canonical floating-point representation, so every number coerces; absence or
null is `MissingParameter`, a non-number is `WrongType`. -/
def requiredNumberParam (args : Args) (key : String) : Except ParamError ℚ :=
  match lookupArg args key with
  | none => .error (.missingParameter key)
  | some .null => .error (.missingParameter key)
  | some (.numV q) => .ok q
  | some _ => .error (.wrongType key)

/-- Modelled from the spec: `OptionalParam[string]` / `optionalValue(args, key, string, "")`,
whose source file is not in the repository snapshot. Returns the string when
present, the zero value `""` when absent or null (a key counts as present only
if its value is non-null), and `WrongType` on a kind mismatch; never fails for
absence. -/
def optionalStringParam (args : Args) (key : String) : Except ParamError String :=
  match lookupArg args key with
  | none => .ok ""
  | some .null => .ok ""
  | some (.strV s) => .ok s
  | some _ => .error (.wrongType key)

/-- Modelled from the spec: `OptionalParam[bool]` / `optionalValue(args, key, bool, false)`,
whose source file is not in the repository snapshot. Returns the boolean when
present, `false` when absent or null, and `WrongType` on a kind mismatch. -/
def optionalBoolParam (args : Args) (key : String) : Except ParamError Bool :=
  match lookupArg args key with
  | none => .ok false
  | some .null => .ok false
  | some (.boolV b) => .ok b
  | some _ => .error (.wrongType key)

/-- The Go presence test `request.GetArguments()[key] != nil`
(releases.go:506, 509): true exactly when the key is present with a
non-null value (a Go `nil` interface arises both from an absent key and
from an explicit JSON null). -/
def presentNonNull (args : Args) (key : String) : Bool :=
  match lookupArg args key with
  | none => false
  | some .null => false
  | some _ => true

/-- The resolved pagination descriptor `{page, perPage}`. -/
structure PaginationParams where
  page : Int
  perPage : Int
deriving DecidableEq

/-- Modelled from the spec: the `page` half of `OptionalPaginationParams`,
whose source file is not in the repository snapshot. Defaults to 1 when the
key is absent or null; a number must be a positive integer, otherwise the
resolution fails with `OutOfRange` (never silently clamps or floors); a
non-number is `WrongType`. -/
def resolvePage (args : Args) : Except ParamError Int :=
  match lookupArg args "page" with
  | none => .ok 1
  | some .null => .ok 1
  | some (.numV q) =>
      if q.den = 1 ∧ 1 ≤ q.num then .ok q.num else .error (.outOfRange "page")
  | some _ => .error (.wrongType "page")

/-- Modelled from the spec: the `perPage` half of `OptionalPaginationParams`,
whose source file is not in the repository snapshot. Defaults to the platform
default 30 when the key is absent or null; a number must be an integer in
1..100 (the platform maximum), otherwise the resolution fails with
`OutOfRange` (never silently clamps); a non-number is `WrongType`. -/
def resolvePerPage (args : Args) : Except ParamError Int :=
  match lookupArg args "perPage" with
  | none => .ok 30
  | some .null => .ok 30
  | some (.numV q) =>
      if q.den = 1 ∧ 1 ≤ q.num ∧ q.num ≤ 100 then .ok q.num
      else .error (.outOfRange "perPage")
  | some _ => .error (.wrongType "perPage")

/-- Modelled from the spec: `OptionalPaginationParams` / `resolvePagination(args)`,
whose source file is not in the repository snapshot. Resolves `page` first,
then `perPage`, failing with the first error encountered. Pure in its input
map, no network access. -/
def OptionalPaginationParams (args : Args) : Except ParamError PaginationParams := do
  let page ← resolvePage args
  let perPage ← resolvePerPage args
  pure ⟨page, perPage⟩

/-- The Go conversion `int64(f)` applied to a float64: truncation toward
zero (releases.go:375, 524, 587). -/
def ratTrunc (q : ℚ) : Int := q.num.sign * Int.ofNat (q.num.natAbs / q.den)

/-! ## Release tool handlers (releases.go)

A handler is embedded as a function from the argument map to
`Except ParamError Call`: `.error e` models the handler returning the
structured tool-error result for `e` before the GitHub client is
constructed and before any upstream call; `.ok c` models the handler
passing validation and performing exactly the upstream API call
described by `c`. -/

/-- The upstream call made by the `list_releases` handler:
`client.Repositories.ListReleases(ctx, owner, repo, opts)` with the
resolved pagination (releases.go:49-59). -/
structure ListReleasesCall where
  owner : String
  repo : String
  page : Int
  perPage : Int
deriving DecidableEq

/-- Validation phase of the `list_releases` handler (releases.go:34-59):
required `owner`, required `repo`, then pagination, each failure returned
immediately; the client is only obtained and the upstream call only made
after all of them succeed. -/
def listReleases (args : Args) : Except ParamError ListReleasesCall := do
  let owner ← requiredStringParam args "owner"
  let repo ← requiredStringParam args "repo"
  let pagination ← OptionalPaginationParams args
  pure ⟨owner, repo, pagination.page, pagination.perPage⟩

/-- The upstream call made by the `get_release` handler:
`client.Repositories.GetRelease(ctx, owner, repo, int64(releaseID))`
(releases.go:375). -/
structure GetReleaseCall where
  owner : String
  repo : String
  releaseID : Int
deriving DecidableEq

/-- Validation phase of the `get_release` handler (releases.go:356-375):
required `owner` and `repo` strings and required `release_id` number; the
number is narrowed with the Go cast `int64(releaseID)`, i.e. truncation
toward zero. -/
def getRelease (args : Args) : Except ParamError GetReleaseCall := do
  let owner ← requiredStringParam args "owner"
  let repo ← requiredStringParam args "repo"
  let releaseID ← requiredNumberParam args "release_id"
  pure ⟨owner, repo, ratTrunc releaseID⟩

/-- The outbound patch object built by the `update_release` handler
(the `github.RepositoryRelease` literal of releases.go:493-517); a `none`
field is omitted from the JSON patch. -/
structure ReleasePatch where
  tagName : Option String
  targetCommitish : Option String
  name : Option String
  body : Option String
  draft : Option Bool
  prerelease : Option Bool
  discussionCategoryName : Option String
  makeLatest : Option String
deriving DecidableEq

/-- The upstream call made by the `update_release` handler:
`client.Repositories.EditRelease(ctx, owner, repo, int64(releaseID), releaseRequest)`
(releases.go:524). -/
structure UpdateReleaseCall where
  owner : String
  repo : String
  releaseID : Int
  patch : ReleasePatch
deriving DecidableEq

/-- Validation and patch-building phase of the `update_release` handler
(releases.go:444-524). String fields are written into the patch only when
the extracted value is non-empty (`if tagName != ""` etc.,
releases.go:494-505, 512-517); boolean fields are written exactly when the
raw argument is present and non-null
(`if request.GetArguments()["draft"] != nil`, releases.go:506-511). -/
def updateRelease (args : Args) : Except ParamError UpdateReleaseCall := do
  let owner ← requiredStringParam args "owner"
  let repo ← requiredStringParam args "repo"
  let releaseID ← requiredNumberParam args "release_id"
  let tagName ← optionalStringParam args "tag_name"
  let targetCommitish ← optionalStringParam args "target_commitish"
  let name ← optionalStringParam args "name"
  let body ← optionalStringParam args "body"
  let draft ← optionalBoolParam args "draft"
  let prerelease ← optionalBoolParam args "prerelease"
  let discussionCategoryName ← optionalStringParam args "discussion_category_name"
  let makeLatest ← optionalStringParam args "make_latest"
  pure ⟨owner, repo, ratTrunc releaseID,
    { tagName := if tagName ≠ "" then some tagName else none
      targetCommitish := if targetCommitish ≠ "" then some targetCommitish else none
      name := if name ≠ "" then some name else none
      body := if body ≠ "" then some body else none
      draft := if presentNonNull args "draft" then some draft else none
      prerelease := if presentNonNull args "prerelease" then some prerelease else none
      discussionCategoryName :=
        if discussionCategoryName ≠ "" then some discussionCategoryName else none
      makeLatest := if makeLatest ≠ "" then some makeLatest else none }⟩

/-- The upstream call made by the `search_users` handler:
`client.Search.Users(ctx, "type:user "+query, opts)` (search.go:294-308). -/
structure SearchUsersCall where
  query : String
  sort : String
  order : String
  page : Int
  perPage : Int
deriving DecidableEq

/-- Validation phase of the `search_users` handler (search.go:276-308):
required `q`, optional `sort` and `order`, pagination; the upstream query
string is always `"type:user "` concatenated with the caller's query. -/
def searchUsers (args : Args) : Except ParamError SearchUsersCall := do
  let query ← requiredStringParam args "q"
  let sort ← optionalStringParam args "sort"
  let order ← optionalStringParam args "order"
  let pagination ← OptionalPaginationParams args
  pure ⟨"type:user " ++ query, sort, order, pagination.page, pagination.perPage⟩

/-! ## Response sanitizers (cleaned_types.go, search.go) -/

/-- The relevant fields of `github.RepositoryContent` (an external
go-github type): the retained metadata, the encoded content cell, and two
representative URL fields that the sanitizer drops. -/
structure RepositoryContent where
  type' : Option String
  target : Option String
  encoding : Option String
  size : Option Int
  name : Option String
  path : Option String
  content : Option String
  sha : Option String
  htmlURL : Option String
  downloadURL : Option String
deriving DecidableEq

/-- `CleanedRepositoryContent` (cleaned_types.go:8-17). -/
structure CleanedRepositoryContent where
  type' : Option String
  target : Option String
  encoding : Option String
  size : Option Int
  name : Option String
  path : Option String
  content : Option String
  sha : Option String
deriving DecidableEq

/-- A decoding function standing for the external go-github method
`content.GetContent()` (a best-effort text decode of the encoded content
cell, out of scope of this repository): `.ok text` models a successful
decode, `.error msg` any decode failure. The theorems below hold for
every such function. -/
abbrev ContentDecoder := RepositoryContent → Except String String

/-- `cleanRepositoryContent` (cleaned_types.go:38-68). Returns the Go pair
`(*CleanedRepositoryContent, error)`. A nil source yields `(nil, nil)`;
otherwise the retained metadata is copied, and when the content field is
non-nil the decode is attempted: on failure the original content and
encoding are kept, on success the decoded text is stored with the
encoding tag rewritten to `"text"`. Every branch returns a nil error. -/
def cleanRepositoryContent (dec : ContentDecoder) (content : Option RepositoryContent) :
    Option CleanedRepositoryContent × Option String :=
  match content with
  | none => (none, none)
  | some c =>
    let cleaned : CleanedRepositoryContent :=
      { type' := c.type', target := c.target, encoding := none, size := c.size,
        name := c.name, path := c.path, content := none, sha := c.sha }
    match c.content with
    | none => (some cleaned, none)
    | some _ =>
      match dec c with
      | .error _ => (some { cleaned with content := c.content, encoding := c.encoding }, none)
      | .ok decodedContent =>
          (some { cleaned with content := some decodedContent, encoding := some "text" }, none)

/-- The element loop of `cleanRepositoryContentSlice` (cleaned_types.go:76-83):
cleans each element in order and propagates the first element error, if any. -/
def cleanContentSliceGo (dec : ContentDecoder) :
    List (Option RepositoryContent) → Except String (List (Option CleanedRepositoryContent))
  | [] => .ok []
  | c :: rest =>
    match cleanRepositoryContent dec c with
    | (_, some e) => .error e
    | (cleanedContent, none) =>
      match cleanContentSliceGo dec rest with
      | .error e => .error e
      | .ok out => .ok (cleanedContent :: out)

/-- `cleanRepositoryContentSlice` (cleaned_types.go:71-85). A nil slice
yields `(nil, nil)`; otherwise each element is cleaned in order and an
element error (were one possible) would abort the whole call. -/
def cleanRepositoryContentSlice (dec : ContentDecoder)
    (contents : Option (List (Option RepositoryContent))) :
    Option (List (Option CleanedRepositoryContent)) × Option String :=
  match contents with
  | none => (none, none)
  | some l =>
    match cleanContentSliceGo dec l with
    | .error e => (none, some e)
    | .ok cleaned => (some cleaned, none)

/-- The relevant fields of `github.User`: the three fields retained by the
search-repository owner projection plus representative dropped fields. -/
structure User where
  login : Option String
  id : Option Int
  type' : Option String
  avatarURL : Option String
  htmlURL : Option String
  url : Option String
deriving DecidableEq

/-- The relevant fields of `github.Repository`: the retained set of the
search projection plus representative clone/API/link URL fields and other
dropped fields. -/
structure Repository where
  id : Option Int
  name : Option String
  fullName : Option String
  owner : Option User
  private' : Option Bool
  fork : Option Bool
  htmlURL : Option String
  cloneURL : Option String
  gitURL : Option String
  sshURL : Option String
  url : Option String
  description : Option String
deriving DecidableEq

/-- `CleanedUser` (cleaned_types.go:31-35). -/
structure CleanedUser where
  login : Option String
  id : Option Int
  type' : Option String
deriving DecidableEq

/-- `CleanedRepository` (cleaned_types.go:20-28): the fixed retained set
`{id, name, full_name, owner, private, fork, html_url}`. -/
structure CleanedRepository where
  id : Option Int
  name : Option String
  fullName : Option String
  owner : Option CleanedUser
  private' : Option Bool
  fork : Option Bool
  htmlURL : Option String
deriving DecidableEq

/-- `cleanRepositoryForSearch` (cleaned_types.go:88-111): nil propagates;
otherwise the retained fields are copied, the owner (when non-nil) is
reduced to login/id/type, and every other field of the source is dropped. -/
def cleanRepositoryForSearch (repo : Option Repository) : Option CleanedRepository :=
  match repo with
  | none => none
  | some r =>
    some { id := r.id, name := r.name, fullName := r.fullName,
           owner :=
             match r.owner with
             | none => none
             | some o => some { login := o.login, id := o.id, type' := o.type' }
           private' := r.private', fork := r.fork, htmlURL := r.htmlURL }

/-- The relevant fields of `github.Match` (passed through verbatim by the
text-match sanitizer). -/
structure MatchFragment where
  text : Option String
  indices : List Int
deriving DecidableEq

/-- The relevant fields of `github.TextMatch`. -/
structure TextMatch where
  objectType : Option String
  property' : Option String
  fragment : Option String
  matches' : Option (List MatchFragment)
deriving DecidableEq

/-- `CleanedTextMatch` (search.go:32-37). -/
structure CleanedTextMatch where
  objectType : Option String
  property' : Option String
  fragment : Option String
  matches' : Option (List MatchFragment)
deriving DecidableEq

/-- The relevant fields of `github.CodeResult`. -/
structure CodeResult where
  name : Option String
  path : Option String
  sha : Option String
  repository : Option Repository
  textMatches : Option (List (Option TextMatch))
deriving DecidableEq

/-- `CleanedCodeResult` (search.go:23-29). -/
structure CleanedCodeResult where
  name : Option String
  path : Option String
  sha : Option String
  repository : Option CleanedRepository
  textMatches : Option (List (Option CleanedTextMatch))
deriving DecidableEq

/-- The relevant fields of `github.CodeSearchResult`. -/
structure CodeSearchResult where
  total : Option Int
  incompleteResults : Option Bool
  codeResults : Option (List (Option CodeResult))
deriving DecidableEq

/-- `CleanedCodeSearchResult` (search.go:16-20). -/
structure CleanedCodeSearchResult where
  total : Option Int
  incompleteResults : Option Bool
  codeResults : Option (List (Option CleanedCodeResult))
deriving DecidableEq

/-- `cleanTextMatch` (search.go:87-103): nil propagates; the retained
classification fields are copied and the match offsets are passed through
verbatim when non-nil. -/
def cleanTextMatch (textMatch : Option TextMatch) : Option CleanedTextMatch :=
  match textMatch with
  | none => none
  | some t =>
    some { objectType := t.objectType, property' := t.property', fragment := t.fragment,
           matches' :=
             match t.matches' with
             | none => none
             | some ms => some ms }

/-- `cleanCodeResult` (search.go:61-84): nil propagates; the repository is
sanitized with the search projection when non-nil, and the text-match
list, when non-nil, is rebuilt element by element in order
(the `make` + indexed-assignment loop of search.go:77-80). -/
def cleanCodeResult (result : Option CodeResult) : Option CleanedCodeResult :=
  match result with
  | none => none
  | some r =>
    some { name := r.name, path := r.path, sha := r.sha,
           repository :=
             match r.repository with
             | none => none
             | some repo => cleanRepositoryForSearch (some repo)
           textMatches :=
             match r.textMatches with
             | none => none
             | some l => some (l.map cleanTextMatch) }

/-- `cleanCodeSearchResult` (search.go:40-58): nil propagates; the counts
are copied and the item list, when non-nil, is rebuilt element by element
in order (the `make` + indexed-assignment loop of search.go:51-54). -/
def cleanCodeSearchResult (result : Option CodeSearchResult) : Option CleanedCodeSearchResult :=
  match result with
  | none => none
  | some r =>
    some { total := r.total, incompleteResults := r.incompleteResults,
           codeResults :=
             match r.codeResults with
             | none => none
             | some l => some (l.map cleanCodeResult) }

/-! ## Helper lemmas -/

/-- Every branch of `cleanRepositoryContent` returns a nil Go error. -/
lemma cleanRepositoryContent_snd (dec : ContentDecoder) (c : Option RepositoryContent) :
    (cleanRepositoryContent dec c).2 = none := by
  cases c with
  | none => rfl
  | some c' =>
    simp only [cleanRepositoryContent]
    cases c'.content with
    | none => rfl
    | some v =>
      cases dec c' with
      | error e => rfl
      | ok d => rfl

/-- The element loop of the slice cleaner is an order-preserving map:
its error branch is unreachable. -/
lemma cleanContentSliceGo_eq_map (dec : ContentDecoder)
    (l : List (Option RepositoryContent)) :
    cleanContentSliceGo dec l = .ok (l.map fun c => (cleanRepositoryContent dec c).1) := by
  induction l with
  | nil => rfl
  | cons c rest ih =>
    have hp : cleanRepositoryContent dec c = ((cleanRepositoryContent dec c).1, none) := by
      rw [← cleanRepositoryContent_snd dec c]
    simp only [cleanContentSliceGo, List.map]
    rw [hp, ih]

/-! ## The claims -/

/-- Claim C1, counterexample: in the `update_release` handler the string
field `name`, explicitly supplied as the empty string (present and
non-null in the argument map), is nevertheless omitted from the outbound
patch object — the patch built for this request is entirely empty, so a
field is not forwarded if and only if explicitly present. -/
theorem c1_counterexample :
    updateRelease
        [("owner", .strV "o"), ("repo", .strV "r"), ("release_id", .numV 5),
          ("name", .strV "")] =
      .ok ⟨"o", "r", 5, ⟨none, none, none, none, none, none, none, none⟩⟩ ∧
    lookupArg
        [("owner", .strV "o"), ("repo", .strV "r"), ("release_id", .numV 5),
          ("name", .strV "")] "name" = some (.strV "") :=
  ⟨rfl, rfl⟩

/-- Claim C1, as amended: the `update_release` handler builds the patch by
two different rules. A boolean field (`draft`, `prerelease`) is forwarded
if and only if its key is explicitly present and non-null — an explicit
`false` is forwarded. A string field is forwarded if and only if its
extracted value is non-empty — an explicitly supplied empty string is
conflated with absence and omitted from the patch. -/
theorem c1_update_release_patch_rule :
    ∀ (args : Args) (o r : String) (q : ℚ) (tn tc nm bd dcn ml : String) (d p : Bool),
      requiredStringParam args "owner" = .ok o →
      requiredStringParam args "repo" = .ok r →
      requiredNumberParam args "release_id" = .ok q →
      optionalStringParam args "tag_name" = .ok tn →
      optionalStringParam args "target_commitish" = .ok tc →
      optionalStringParam args "name" = .ok nm →
      optionalStringParam args "body" = .ok bd →
      optionalBoolParam args "draft" = .ok d →
      optionalBoolParam args "prerelease" = .ok p →
      optionalStringParam args "discussion_category_name" = .ok dcn →
      optionalStringParam args "make_latest" = .ok ml →
      updateRelease args =
        .ok ⟨o, r, ratTrunc q,
          { tagName := if tn ≠ "" then some tn else none
            targetCommitish := if tc ≠ "" then some tc else none
            name := if nm ≠ "" then some nm else none
            body := if bd ≠ "" then some bd else none
            draft := if presentNonNull args "draft" then some d else none
            prerelease := if presentNonNull args "prerelease" then some p else none
            discussionCategoryName := if dcn ≠ "" then some dcn else none
            makeLatest := if ml ≠ "" then some ml else none }⟩ := by
  intro args o r q tn tc nm bd dcn ml d p h1 h2 h3 h4 h5 h6 h7 h8 h9 h10 h11
  simp [updateRelease, h1, h2, h3, h4, h5, h6, h7, h8, h9, h10, h11,
    Bind.bind, Except.bind, pure, Except.pure]

/-- Claim C1, witness: a request supplying `tag_name := "v2"`,
`name := ""` and `draft := false` yields a patch that keeps the non-empty
string and the explicitly-false boolean but drops the empty string. -/
theorem c1_witness :
    updateRelease
        [("owner", .strV "o"), ("repo", .strV "r"), ("release_id", .numV 7),
          ("tag_name", .strV "v2"), ("name", .strV ""), ("draft", .boolV false)] =
      .ok ⟨"o", "r", 7,
        ⟨some "v2", none, none, none, some false, none, none, none⟩⟩ :=
  c1_update_release_patch_rule
    [("owner", .strV "o"), ("repo", .strV "r"), ("release_id", .numV 7),
      ("tag_name", .strV "v2"), ("name", .strV ""), ("draft", .boolV false)]
    "o" "r" 7 "v2" "" "" "" "" "" false false
    rfl rfl rfl rfl rfl rfl rfl rfl rfl rfl rfl

/-- Claim C2, counterexample: the `get_release` handler accepts the
non-integral number 123.5 (here `halfNum`) for `release_id` — the request
does not fail with `WrongType`; the value is silently truncated to 123
before the upstream call. -/
def halfNum : ℚ := ⟨247, 2, by decide, by decide⟩

/-- Claim C2, counterexample (see `halfNum`, the JSON number 123.5). -/
theorem c2_counterexample :
    getRelease
        [("owner", .strV "o"), ("repo", .strV "r"), ("release_id", .numV halfNum)] =
      .ok ⟨"o", "r", 123⟩ ∧
    halfNum.den ≠ 1 :=
  ⟨rfl, by decide⟩

/-- Claim C2, as amended: the required-number extraction accepts every
numeric value, and the `get_release` handler narrows it with the Go cast
`int64(releaseID)`, i.e. truncation toward zero — an integral number such
as 123.0 yields 123, and a non-integral number is truncated, never
rejected with `WrongType`. -/
theorem c2_get_release_truncates :
    (∀ (args : Args) (o r : String) (q : ℚ),
        requiredStringParam args "owner" = .ok o →
        requiredStringParam args "repo" = .ok r →
        requiredNumberParam args "release_id" = .ok q →
        getRelease args = .ok ⟨o, r, ratTrunc q⟩) ∧
    (∀ n : Int, ratTrunc (n : ℚ) = n) := by
  constructor
  · intro args o r q h1 h2 h3
    simp [getRelease, h1, h2, h3, Bind.bind, Except.bind, pure, Except.pure]
  · intro n
    simp [ratTrunc, Rat.num_intCast, Rat.den_intCast, Int.sign_mul_natAbs,
      Int.sign_mul_abs]

/-- Claim C2, witness: the integral input 123.0 for `release_id` reaches
the upstream call as the integer 123. -/
theorem c2_witness :
    getRelease [("owner", .strV "o"), ("repo", .strV "r"), ("release_id", .numV 123)] =
      .ok ⟨"o", "r", 123⟩ :=
  c2_get_release_truncates.1
    [("owner", .strV "o"), ("repo", .strV "r"), ("release_id", .numV 123)]
    "o" "r" 123 rfl rfl rfl

/-- Claim C3 (confirmed): for every decoder and every content entity with
a non-null content field, `cleanRepositoryContent` returns a result and a
nil error; when decoding succeeds the output content is the decoded text
with encoding tag `"text"`, and when decoding fails the output keeps the
original encoded content and original encoding tag unchanged. -/
theorem c3_clean_repository_content_decode :
    ∀ (dec : ContentDecoder) (c : RepositoryContent) (v : String),
      c.content = some v →
      ∃ out, cleanRepositoryContent dec (some c) = (some out, none) ∧
        (∀ d, dec c = .ok d → out.content = some d ∧ out.encoding = some "text") ∧
        (∀ e, dec c = .error e → out.content = some v ∧ out.encoding = c.encoding) := by
  intro dec c v hv
  cases hd : dec c with
  | error e =>
    refine ⟨
      { type' := c.type', target := c.target, encoding := c.encoding,
        size := c.size, name := c.name, path := c.path, content := some v,
        sha := c.sha }, ?_, ?_, ?_⟩
    · simp [cleanRepositoryContent, hv, hd]
    · intro d hd'
      cases hd'
    · intro e' he
      exact ⟨rfl, rfl⟩
  | ok d =>
    refine ⟨
      { type' := c.type', target := c.target, encoding := some "text",
        size := c.size, name := c.name, path := c.path, content := some d,
        sha := c.sha }, ?_, ?_, ?_⟩
    · simp [cleanRepositoryContent, hv, hd]
    · intro d' hd'
      cases hd'
      exact ⟨rfl, rfl⟩
    · intro e' he
      cases he

/-- Claim C3, witness: a concrete content entity under a decoder that
succeeds with the text `"hello"`. -/
theorem c3_witness :
    ∃ out,
      cleanRepositoryContent (fun _ => .ok "hello")
          (some
            { type' := some "file", target := none, encoding := some "base64",
              size := some 4, name := some "f.txt", path := some "d/f.txt",
              content := some "aGVsbG8=", sha := some "abc",
              htmlURL := some "h", downloadURL := some "d" }) =
        (some out, none) ∧
      (∀ d, (Except.ok (ε := String) "hello") = .ok d →
        out.content = some d ∧ out.encoding = some "text") ∧
      (∀ e, (Except.ok (ε := String) "hello") = .error e →
        out.content = some "aGVsbG8=" ∧
        out.encoding =
          ({ type' := some "file", target := none, encoding := some "base64",
             size := some 4, name := some "f.txt", path := some "d/f.txt",
             content := some "aGVsbG8=", sha := some "abc",
             htmlURL := some "h", downloadURL := some "d" } : RepositoryContent).encoding) :=
  c3_clean_repository_content_decode (fun _ => .ok "hello")
    { type' := some "file", target := none, encoding := some "base64",
      size := some 4, name := some "f.txt", path := some "d/f.txt",
      content := some "aGVsbG8=", sha := some "abc",
      htmlURL := some "h", downloadURL := some "d" }
    "aGVsbG8=" rfl

/-- Claim C4 (confirmed): the search projection of a non-null repository
is exactly the record over the fixed retained set
`{id, name, full_name, owner, private, fork, html_url}` with the owner
reduced to `{login, id, type}` — and it is unchanged under arbitrary
modification of the clone/git/ssh/API URL fields and the description,
which are all dropped; `html_url` is the only URL kept. -/
theorem c4_clean_repository_for_search_allowlist :
    (∀ repo : Repository,
      cleanRepositoryForSearch (some repo) =
        some
          { id := repo.id, name := repo.name, fullName := repo.fullName,
            owner :=
              match repo.owner with
              | none => none
              | some o => some { login := o.login, id := o.id, type' := o.type' }
            private' := repo.private', fork := repo.fork, htmlURL := repo.htmlURL }) ∧
    (∀ (repo : Repository) (u1 u2 u3 u4 u5 : Option String),
      cleanRepositoryForSearch
          (some
            { repo with
              cloneURL := u1, gitURL := u2, sshURL := u3, url := u4,
              description := u5 }) =
        cleanRepositoryForSearch (some repo)) :=
  ⟨fun _ => rfl, fun _ _ _ _ _ _ => rfl⟩

/-- Claim C5 (confirmed): every sanitizer maps a nil source to nil
(`cleanCodeSearchResult`, `cleanCodeResult`, `cleanTextMatch`,
`cleanRepositoryForSearch`, `cleanRepositoryContent`,
`cleanRepositoryContentSlice`), and every sanitized collection is the
order-preserving elementwise image of the input collection — a nil input
element yields a nil output element and never fails the call (the error
component is always nil). -/
theorem c5_sanitizer_null_and_collections :
    cleanCodeSearchResult none = none ∧
    cleanCodeResult none = none ∧
    cleanTextMatch none = none ∧
    cleanRepositoryForSearch none = none ∧
    (∀ dec : ContentDecoder, cleanRepositoryContent dec none = (none, none)) ∧
    (∀ dec : ContentDecoder, cleanRepositoryContentSlice dec none = (none, none)) ∧
    (∀ (dec : ContentDecoder) (l : List (Option RepositoryContent)),
      cleanRepositoryContentSlice dec (some l) =
        (some (l.map fun c => (cleanRepositoryContent dec c).1), none)) ∧
    (∀ (r : CodeSearchResult) (l : List (Option CodeResult)),
      r.codeResults = some l →
      cleanCodeSearchResult (some r) =
        some
          { total := r.total, incompleteResults := r.incompleteResults,
            codeResults := some (l.map cleanCodeResult) }) ∧
    (∀ (res : CodeResult) (l : List (Option TextMatch)),
      res.textMatches = some l →
      ∃ c, cleanCodeResult (some res) = some c ∧
        c.textMatches = some (l.map cleanTextMatch)) := by
  refine ⟨rfl, rfl, rfl, rfl, fun _ => rfl, fun _ => rfl, ?_, ?_, ?_⟩
  · intro dec l
    simp [cleanRepositoryContentSlice, cleanContentSliceGo_eq_map]
  · intro r l h
    simp [cleanCodeSearchResult, h]
  · intro res l h
    exact ⟨_, rfl, by simp [cleanCodeResult, h]⟩

/-- Claim C5, witness: a two-element content slice whose first element is
nil is sanitized elementwise in order with a nil first output and a nil
error, and a one-item code search result is sanitized elementwise. -/
theorem c5_witness :
    cleanRepositoryContentSlice (fun _ => .error "binary")
        (some [none,
          some
            { type' := some "file", target := none, encoding := some "base64",
              size := some 1, name := some "a", path := some "a", content := none,
              sha := none, htmlURL := none, downloadURL := none }]) =
      (some [none,
        some
          { type' := some "file", target := none, encoding := none,
            size := some 1, name := some "a", path := some "a", content := none,
            sha := none }], none) ∧
    cleanCodeSearchResult
        (some
          { total := some 1, incompleteResults := some false,
            codeResults := some [none] }) =
      some
        { total := some 1, incompleteResults := some false,
          codeResults := some [none] } :=
  ⟨c5_sanitizer_null_and_collections.2.2.2.2.2.2.1 (fun _ => .error "binary")
      [none,
        some
          { type' := some "file", target := none, encoding := some "base64",
            size := some 1, name := some "a", path := some "a", content := none,
            sha := none, htmlURL := none, downloadURL := none }],
    c5_sanitizer_null_and_collections.2.2.2.2.2.2.2.1
      { total := some 1, incompleteResults := some false, codeResults := some [none] }
      [none] rfl⟩

/-- Claim C6 (confirmed): pagination resolution defaults per key — for
every argument map, an absent `page` resolves to 1 and an absent
`perPage` resolves to 30, independently of the other key; it fails with
`OutOfRange` for every numeric `page` that is non-integral or not
positive and for every numeric `perPage` that is not an integer in
1..100 (never clamping); and in particular `{}` resolves to
`{page 1, perPage 30}` while `{page 2, perPage 150}` fails with
`OutOfRange` on `perPage`. -/
theorem c6_pagination_defaults_and_bounds :
    OptionalPaginationParams [] = .ok ⟨1, 30⟩ ∧
    (∀ args : Args, lookupArg args "page" = none → resolvePage args = .ok 1) ∧
    (∀ args : Args, lookupArg args "perPage" = none → resolvePerPage args = .ok 30) ∧
    (∀ (args : Args) (p : PaginationParams), lookupArg args "page" = none →
      OptionalPaginationParams args = .ok p → p.page = 1) ∧
    (∀ (args : Args) (p : PaginationParams), lookupArg args "perPage" = none →
      OptionalPaginationParams args = .ok p → p.perPage = 30) ∧
    (∀ (args : Args) (q : ℚ), lookupArg args "page" = some (.numV q) →
      ¬(q.den = 1 ∧ 1 ≤ q.num) →
      OptionalPaginationParams args = .error (.outOfRange "page")) ∧
    (∀ (args : Args) (p : Int) (q : ℚ), resolvePage args = .ok p →
      lookupArg args "perPage" = some (.numV q) →
      ¬(q.den = 1 ∧ 1 ≤ q.num ∧ q.num ≤ 100) →
      OptionalPaginationParams args = .error (.outOfRange "perPage")) ∧
    OptionalPaginationParams [("page", .numV 2), ("perPage", .numV 150)] =
      .error (.outOfRange "perPage") := by
  refine ⟨rfl, ?_, ?_, ?_, ?_, ?_, ?_, rfl⟩
  · intro args h
    simp [resolvePage, h]
  · intro args h
    simp [resolvePerPage, h]
  · intro args p h hp
    have h1 : resolvePage args = .ok 1 := by simp [resolvePage, h]
    rcases h2 : resolvePerPage args with e | pp
    · rw [OptionalPaginationParams] at hp
      simp only [h1, h2, Bind.bind, Except.bind] at hp
      cases hp
    · rw [OptionalPaginationParams] at hp
      simp only [h1, h2, Bind.bind, Except.bind, pure, Except.pure] at hp
      cases hp
      rfl
  · intro args p h hp
    have h2 : resolvePerPage args = .ok 30 := by simp [resolvePerPage, h]
    rcases h1 : resolvePage args with e | pg
    · rw [OptionalPaginationParams] at hp
      simp only [h1, Bind.bind, Except.bind] at hp
      cases hp
    · rw [OptionalPaginationParams] at hp
      simp only [h1, h2, Bind.bind, Except.bind, pure, Except.pure] at hp
      cases hp
      rfl
  · intro args q h hq
    simp [OptionalPaginationParams, resolvePage, h, hq,
      Bind.bind, Except.bind, pure, Except.pure]
  · intro args p q hp h hq
    simp [OptionalPaginationParams, hp, resolvePerPage, h, hq,
      Bind.bind, Except.bind, pure, Except.pure]

/-- Claim C6, witness: a non-integral page (`halfPage`, the JSON number
2.5) fails with `OutOfRange` on `page`; a perPage of 150 next to a valid
page fails with `OutOfRange` on `perPage`; an absent `page` next to a
supplied `perPage` of 50 resolves to page 1, and an absent `perPage`
next to a supplied `page` of 2 resolves to perPage 30. -/
def halfPage : ℚ := ⟨5, 2, by decide, by decide⟩

/-- Claim C6, witness (see `halfPage`). -/
theorem c6_witness :
    resolvePage [("perPage", .numV 50)] = .ok 1 ∧
    resolvePerPage [("page", .numV 2)] = .ok 30 ∧
    ({ page := 1, perPage := 50 } : PaginationParams).page = 1 ∧
    ({ page := 2, perPage := 30 } : PaginationParams).perPage = 30 ∧
    OptionalPaginationParams [("page", .numV halfPage)] =
      .error (.outOfRange "page") ∧
    OptionalPaginationParams [("page", .numV 2), ("perPage", .numV 150)] =
      .error (.outOfRange "perPage") :=
  ⟨c6_pagination_defaults_and_bounds.2.1 [("perPage", .numV 50)] rfl,
    c6_pagination_defaults_and_bounds.2.2.1 [("page", .numV 2)] rfl,
    c6_pagination_defaults_and_bounds.2.2.2.1 [("perPage", .numV 50)] ⟨1, 50⟩ rfl rfl,
    c6_pagination_defaults_and_bounds.2.2.2.2.1 [("page", .numV 2)] ⟨2, 30⟩ rfl rfl,
    c6_pagination_defaults_and_bounds.2.2.2.2.2.1 [("page", .numV halfPage)] halfPage rfl
      (by decide),
    c6_pagination_defaults_and_bounds.2.2.2.2.2.2.1
      [("page", .numV 2), ("perPage", .numV 150)] 2 150 rfl rfl (by decide)⟩

/-- Claim C7, counterexample: in the request `{owner: 1}` the required
key `repo` is absent, yet the `list_releases` handler reports the
`WrongType` failure of the earlier key `owner` rather than a
`MissingParameter` result, because extraction errors are reported in
owner-then-repo order — so "any required key absent or null implies a
MissingParameter result" fails on this map (the no-upstream-call half
still holds: the result is an error, not an `.ok` call). -/
theorem c7_counterexample :
    listReleases [("owner", .numV 1)] = .error (.wrongType "owner") ∧
    lookupArg [("owner", .numV 1)] "repo" = none :=
  ⟨rfl, rfl⟩

/-- Claim C7, as amended: in the `list_releases` handler, a request map
with any required key (`owner` or `repo`) absent or null always produces
a structured validation-failure result and never reaches the `.ok`
outcome — the GitHub client is never constructed and no upstream call is
attempted. The failure is `MissingParameter` for the missing key
whenever that key is the first failing extraction in owner-then-repo
order: `owner` absent or null reports `MissingParameter owner`, and
`repo` absent or null reports `MissingParameter repo` whenever `owner`
extracted successfully; if an earlier required key fails with the wrong
kind, that error is reported instead. -/
theorem c7_list_releases_fail_fast :
    ∀ args : Args,
      ((lookupArg args "owner" = none ∨ lookupArg args "owner" = some .null) →
        listReleases args = .error (.missingParameter "owner")) ∧
      (∀ o, requiredStringParam args "owner" = .ok o →
        (lookupArg args "repo" = none ∨ lookupArg args "repo" = some .null) →
        listReleases args = .error (.missingParameter "repo")) ∧
      (∀ key, (key = "owner" ∨ key = "repo") →
        (lookupArg args key = none ∨ lookupArg args key = some .null) →
        ∃ e, listReleases args = .error e ∧ ∀ c, listReleases args ≠ .ok c) := by
  intro args
  have howner : ∀ (h : lookupArg args "owner" = none ∨ lookupArg args "owner" = some .null),
      requiredStringParam args "owner" = .error (.missingParameter "owner") := by
    intro h
    rcases h with h | h <;> simp [requiredStringParam, h]
  have hrepo : ∀ (h : lookupArg args "repo" = none ∨ lookupArg args "repo" = some .null),
      requiredStringParam args "repo" = .error (.missingParameter "repo") := by
    intro h
    rcases h with h | h <;> simp [requiredStringParam, h]
  have mk : ∀ e, listReleases args = .error e →
      ∃ e, listReleases args = .error e ∧ ∀ c, listReleases args ≠ .ok c := by
    intro e he
    refine ⟨e, he, ?_⟩
    intro c hc
    rw [he] at hc
    cases hc
  refine ⟨?_, ?_, ?_⟩
  · intro h
    simp [listReleases, howner h, Bind.bind, Except.bind]
  · intro o ho h
    simp [listReleases, ho, hrepo h, Bind.bind, Except.bind]
  · intro key hkey h
    rcases hkey with rfl | rfl
    · exact mk (.missingParameter "owner")
        (by simp [listReleases, howner h, Bind.bind, Except.bind])
    · rcases hor : requiredStringParam args "owner" with e | o
      · exact mk e (by simp [listReleases, hor, Bind.bind, Except.bind])
      · exact mk (.missingParameter "repo")
          (by simp [listReleases, hor, hrepo h, Bind.bind, Except.bind])

/-- Claim C7, witness: with `owner` absent the handler reports
`MissingParameter owner`; with `owner` present and `repo` null, it
reports `MissingParameter repo`; and with `repo` absent the result is
some validation error and never an `.ok` upstream call. -/
theorem c7_witness :
    listReleases [("repo", .strV "r")] = .error (.missingParameter "owner") ∧
    listReleases [("owner", .strV "o"), ("repo", .null)] =
      .error (.missingParameter "repo") ∧
    ∃ e, listReleases [("repo", .strV "r")] = .error e ∧
      ∀ c, listReleases [("repo", .strV "r")] ≠ .ok c :=
  ⟨(c7_list_releases_fail_fast [("repo", .strV "r")]).1 (Or.inl rfl),
    (c7_list_releases_fail_fast [("owner", .strV "o"), ("repo", .null)]).2.1
      "o" rfl (Or.inr rfl),
    (c7_list_releases_fail_fast [("repo", .strV "r")]).2.2
      "owner" (Or.inl rfl) (Or.inl rfl)⟩

/-- Claim C8 (confirmed): a required string key present with the empty
string extracts successfully as `""`, and `MissingParameter` arises only
from an absent key or an explicit null. -/
theorem c8_required_empty_string :
    (∀ (args : Args) (key : String), lookupArg args key = some (.strV "") →
      requiredStringParam args key = .ok "") ∧
    (∀ (args : Args) (key : String) (k : String),
      requiredStringParam args key = .error (.missingParameter k) →
      lookupArg args key = none ∨ lookupArg args key = some .null) := by
  constructor
  · intro args key h
    simp [requiredStringParam, h]
  · intro args key k h
    rw [requiredStringParam] at h
    rcases hlk : lookupArg args key with _ | v
    · exact Or.inl rfl
    · rw [hlk] at h
      cases v with
      | null => exact Or.inr rfl
      | boolV b => cases h
      | numV q => cases h
      | strV s => cases h

/-- Claim C8, witness: `{owner: ""}` extracts `owner` as the empty
string, and on `{}` the `MissingParameter` failure for `owner` indeed
comes from absence. -/
theorem c8_witness :
    requiredStringParam [("owner", .strV "")] "owner" = .ok "" ∧
    (lookupArg ([] : Args) "owner" = none ∨ lookupArg ([] : Args) "owner" = some .null) :=
  ⟨c8_required_empty_string.1 [("owner", .strV "")] "owner" rfl,
    c8_required_empty_string.2 [] "owner" "owner" rfl⟩

/-- Claim C9 (confirmed): `cleanRepositoryContent` returns a nil error on
every input and for every decoder, and consequently
`cleanRepositoryContentSlice` returns a nil error on every input slice —
the error-propagation branch of the slice cleaner is unreachable, so
sanitizing repository content can never fail. -/
theorem c9_clean_content_never_errors :
    (∀ (dec : ContentDecoder) (c : Option RepositoryContent),
      (cleanRepositoryContent dec c).2 = none) ∧
    (∀ (dec : ContentDecoder) (cs : Option (List (Option RepositoryContent))),
      (cleanRepositoryContentSlice dec cs).2 = none) := by
  refine ⟨cleanRepositoryContent_snd, ?_⟩
  intro dec cs
  cases cs with
  | none => rfl
  | some l =>
    simp [cleanRepositoryContentSlice, cleanContentSliceGo_eq_map]

/-- Claim C10 (confirmed): whenever the `search_users` handler reaches
its upstream call, the query string passed to the user-search API is
exactly `"type:user "` concatenated with the caller's `q` argument. -/
theorem c10_search_users_type_filter :
    ∀ (args : Args) (q : String) (c : SearchUsersCall),
      requiredStringParam args "q" = .ok q →
      searchUsers args = .ok c →
      c.query = "type:user " ++ q := by
  intro args q c hq hc
  rw [searchUsers, hq] at hc
  rcases hs : optionalStringParam args "sort" with e | sort
  · rw [hs] at hc
    cases hc
  · rw [hs] at hc
    rcases ho : optionalStringParam args "order" with e | order
    · rw [ho] at hc
      cases hc
    · rw [ho] at hc
      rcases hp : OptionalPaginationParams args with e | pagination
      · rw [hp] at hc
        cases hc
      · rw [hp] at hc
        cases hc
        rfl

/-- Claim C10, witness: the query `"alice in:login"` is sent upstream as
`"type:user alice in:login"`. -/
theorem c10_witness :
    ({ query := "type:user alice in:login", sort := "", order := "",
        page := 1, perPage := 30 } : SearchUsersCall).query =
      "type:user " ++ "alice in:login" :=
  c10_search_users_type_filter [("q", .strV "alice in:login")] "alice in:login"
    { query := "type:user alice in:login", sort := "", order := "",
      page := 1, perPage := 30 }
    rfl rfl

end TfyGithubMcp
